import Mathlib

/-!
Shallow embedding of the simpleiot client core: the point data model and
transport (`src/client/point.go`), bus subject construction
(`src/client/subject.go`), edge tombstones (`src/data/edge.go`), and the
client `Manager` control loop (`src/client/manager.go`).

Go strings are modelled as Lean `String`; Go `error` results as
`Option GoErr` (`none` = nil error) or `Except GoErr`; Go panics as
`Option` failure; the serialized protobuf payload as an opaque byte list.
External collaborators (the NATS connection, the protobuf codec and the
store query) are passed in as function parameters, so the theorems
quantify over every possible collaborator behaviour.
-/

namespace SimpleIot

/-- Go `error` values, abstracted to their message. -/
abbrev GoErr := String

/-- Opaque serialized point-batch payload (`[]byte` in Go). -/
abbrev Pb := List Nat

/-! ## Point data model (`data` package, as described by the spec) -/

/-- A point: an atomic, timestamped, typed fact.  `time` is a numeric
timestamp with `0` playing the role of Go's zero `time.Time`
(`Time.IsZero()`); `value` stands for the numeric value field. -/
structure Point where
  typ : String
  key : String
  value : Int
  text : String
  time : Nat
deriving DecidableEq, Repr

/-- Modelled from the spec: the point-type tag carried by node-type points
(the constant `data.PointTypeNodeType`, whose defining file is not part of
the sources at hand; the spec fixes only that it is the distinguished
"node type" point type tag). -/
def PointTypeNodeType : String := "nodeType"

/-- Modelled from the spec: the tombstone point type tag
(`data.PointTypeTombstone`, whose defining file is not part of the sources
at hand). -/
def PointTypeTombstone : String := "tombstone"

/-! ## Go string helpers used by the embedded code -/

/-- ASCII lower-casing of one character, the effect of Go's
`strings.ToLower` on a single ASCII character. -/
def toLowerChar (c : Char) : Char :=
  if 65 ≤ c.toNat ∧ c.toNat ≤ 90 then Char.ofNat (c.toNat + 32) else c

/-- Go `strings.ToLower` restricted to ASCII strings (Go type identifiers). -/
def goToLower (s : String) : String := ⟨s.data.map toLowerChar⟩

/-- Go string slicing `s[i:j]`: `none` models the bounds-check panic. -/
def goSlice (s : String) (i j : Nat) : Option String :=
  if i ≤ j ∧ j ≤ s.length then some ⟨(s.data.drop i).take (j - i)⟩ else none

/-- `fmt.Sprintf` restricted to the `%v` verb applied to strings, which is
the only use the embedded code makes of it: each `%v` in the format is
replaced by the next argument. -/
def substV : List Char → List String → List Char
  | [], _ => []
  | '%' :: 'v' :: rest, a :: args => a.data ++ substV rest args
  | c :: rest, args => c :: substV rest args

/-- `fmt.Sprintf` with string arguments (see `substV`). -/
def goSprintf (fmt : String) (args : List String) : String :=
  ⟨substV fmt.data args⟩

/-! ## Bus subjects (`src/client/subject.go`) -/

/-- `SubjectNodePoints` constructs a NATS subject for node points. -/
def SubjectNodePoints (nodeID : String) : String :=
  goSprintf "node.%v.points" [nodeID]

/-- `SubjectEdgePoints` constructs a NATS subject for edge points. -/
def SubjectEdgePoints (nodeID parentID : String) : String :=
  goSprintf "node.%v.%v.points" [nodeID, parentID]

/-- `SubjectNodeAllPoints`: subject for all points for any node. -/
def SubjectNodeAllPoints : String := "node.*.points"

/-- `SubjectEdgeAllPoints`: subject for all edge points for any node. -/
def SubjectEdgeAllPoints : String := "node.*.*.points"

/-- `SubjectNodeHRPoints`: subject for high rate node points. -/
def SubjectNodeHRPoints (nodeID : String) : String :=
  goSprintf "phr.%v" [nodeID]

/-! ## Point transport (`src/client/point.go`)

The NATS connection and the protobuf codec are external: they enter as
function parameters.  `toPb` models `data.Points.ToPb` (modelled from the
spec: serialization of a point batch, which may fail); `request` models
`nc.Request(subject, data, timeout)` and returns either an error (bus
unavailable, no responder, reply timeout) or the reply body, decoded as a
UTF-8 string; `publish` models `nc.Publish`. -/

/-- The `time.Second` timeout passed by `SendPoints` to `nc.Request`,
in milliseconds. -/
def oneSecondMs : Nat := 1000

/-- The time-stamping loop at the head of `SendPoints`: every point whose
`Time` is the zero timestamp is stamped with the current time `now`. -/
def stampTimes (now : Nat) (points : List Point) : List Point :=
  points.map (fun p => if p.time = 0 then { p with time := now } else p)

/-- `SendPoints nc subject points ack` from `src/client/point.go`.
Returns `none` for a nil error and `some e` for an error with message
`e`.  The reply body of an acknowledged request is interpreted exactly as
the Go code does: a non-empty body becomes the returned error message. -/
def SendPoints (toPb : List Point → Except GoErr Pb)
    (request : String → Pb → Nat → Except GoErr String)
    (publish : String → Pb → Option GoErr)
    (now : Nat) (subject : String) (points : List Point) (ack : Bool) :
    Option GoErr :=
  let points := stampTimes now points
  match toPb points with
  | .error e => some e
  | .ok dat =>
    if ack then
      match request subject dat oneSecondMs with
      | .error e => some e
      | .ok reply => if 0 < reply.length then some reply else none
    else
      match publish subject dat with
      | some e => some e
      | none => none

/-- `SendEdgePoints nc nodeID parentID points ack`: substitutes the
literal `"none"` for an empty parent id, then sends on the edge-points
subject. -/
def SendEdgePoints (toPb : List Point → Except GoErr Pb)
    (request : String → Pb → Nat → Except GoErr String)
    (publish : String → Pb → Option GoErr)
    (now : Nat) (nodeID parentID : String) (points : List Point)
    (ack : Bool) : Option GoErr :=
  let parentID := if parentID = "" then "none" else parentID
  SendPoints toPb request publish now (SubjectEdgePoints nodeID parentID)
    points ack

/-! ## Edge model (`src/data/edge.go`) -/

/-- An edge between two nodes (`data.Edge`). -/
structure Edge where
  id : String
  up : String
  down : String
  points : List Point
  hash : List Nat
deriving DecidableEq, Repr

/-- Modelled from the spec: `data.Points.ValueBool(key, typ, index)`,
whose defining file is not part of the sources at hand.  It looks up the
`index`-th point carrying the given key and type and reads it as a
boolean (a numeric point value is "set true" when it is non-zero),
returning `(value, found)`. -/
def valueBool (ps : List Point) (key typ : String) (index : Nat) :
    Bool × Bool :=
  match (ps.filter (fun p => decide (p.key = key) && decide (p.typ = typ))).get? index with
  | some p => (decide (p.value ≠ 0), true)
  | none => (false, false)

/-- `Edge.IsTombstone` from `src/data/edge.go`: reads the boolean
tombstone point (empty key, type `tombstone`, index 0), discarding the
`found` flag. -/
def Edge.IsTombstone (e : Edge) : Bool :=
  (valueBool e.points "" PointTypeTombstone 0).1

/-! ## Node-type derivation (`NewManager`, `src/client/manager.go`) -/

/-- The node-type derivation inside `NewManager`:
`strings.ToLower(name[0:1]) + name[1:]` applied to
`reflect.TypeOf(x).Name()`.  `none` models the slice-bounds panic Go
raises when the reflected type name is empty (an unnamed type). -/
def deriveNodeType (name : String) : Option String := do
  let first ← goSlice name 0 1
  let rest ← goSlice name 1 name.length
  pure (goToLower first ++ rest)

/-! ## Client manager (`src/client/manager.go`)

The manager's event loop owns its `clientStates` map exclusively; all
outside signals reach it as messages on channels.  We embed the loop as a
step function on an explicit state, driven by a list of `Event`s (the
messages the Go `select` can receive).  The store collaborator
(`client.GetNodeChildren`) is a function parameter.  Goroutine-visible
effects that matter to the claims are recorded in the state: the list of
stop signals each client instance has received (`InstState.stops`), a
count of `Manager.scan` executions (`scanCount`) and the arguments of the
most recent children query (`lastQuery`). -/

/-- A node as returned by the `GetNodeChildren` store query
(`data.NodeEdge`: the node together with its parent context). -/
structure GoNode where
  id : String
  parent : String
  ntype : String
  points : List Point
deriving DecidableEq, Repr

/-- Modelled from the spec: the client registration key, the
`(parent node id, child node id)` pair (`client.mapKey`, whose defining
file is not part of the sources at hand). -/
def mapKey (n : GoNode) : String × String := (n.parent, n.id)

/-- The registration key type. -/
abbrev Key := String × String

/-- The per-instance state visible to the manager: the node the instance
was constructed from, and the stop signals (optional errors) delivered to
it so far, oldest first (`clientState.stop(err)` calls). -/
structure InstState where
  node : GoNode
  stops : List (Option GoErr)
deriving DecidableEq, Repr

/-- `newClientState`: a freshly constructed instance, no stop signals yet. -/
def newClientState (n : GoNode) : InstState := { node := n, stops := [] }

/-- Deliver one stop signal to an instance (`clientState.stop(err)`). -/
def signalStop (e : Option GoErr) (i : InstState) : InstState :=
  { i with stops := i.stops ++ [e] }

/-- The state of one manager's `Start` loop.  `startErr` is the `err`
local of `Start` as it stands when the loop runs: the subscribe error is
returned before the loop, and the in-loop `scan` closure shadows `err`,
so `startErr` is frozen to the initial scan's result. -/
structure MgrState where
  root : String
  nodeType : String
  clientStates : List (Key × InstState)
  stopping : Bool
  startErr : Option GoErr
  subscribed : Bool
  timerArmed : Bool
  done : Bool
  scanCount : Nat
  lastQuery : Option (String × String × Bool × Bool)
deriving DecidableEq, Repr

/-- The store collaborator `GetNodeChildren(nc, root, nodeType,
includeDeleted, recursive)`, as a function of the four query arguments. -/
abbrev Store := String → String → Bool → Bool → Except GoErr (List GoNode)

/-- The registered registration keys of a manager state. -/
def keysOf (s : MgrState) : List Key := s.clientStates.map Prod.fst

/-- First loop of `Manager.scan`: walk the scan result in order; a child
whose key is already registered is skipped, any other child is
constructed, registered and started. -/
def scanAdd : List (Key × InstState) → List GoNode → List (Key × InstState)
  | css, [] => css
  | css, n :: rest =>
    if ((css.find? (fun p => decide (p.1 = mapKey n)))).isSome then
      scanAdd css rest
    else
      scanAdd (css ++ [(mapKey n, newClientState n)]) rest

/-- Second loop of `Manager.scan`: every registered instance whose key is
not in the `found` set of the scan result is signalled to stop with a nil
error (it stays registered until its completion message arrives). -/
def scanStop (found : List Key) (css : List (Key × InstState)) :
    List (Key × InstState) :=
  css.map (fun p => if p.1 ∈ found then p else (p.1, signalStop none p.2))

/-- `Manager.scan`: query the children of `root` with the managed node
type (excluding tombstoned, non-recursive), register-and-start new
children, signal stale instances to stop.  Returns the updated state and
the scan's error result. -/
def scanStep (store : Store) (s : MgrState) : MgrState × Option GoErr :=
  let s := { s with scanCount := s.scanCount + 1,
                    lastQuery := some (s.root, s.nodeType, false, false) }
  match store s.root s.nodeType false false with
  | .error e => (s, some e)
  | .ok children =>
    if children.length < 0 then (s, none)
    else
      let found := children.map mapKey
      let css := scanAdd s.clientStates children
      let css := scanStop found css
      ({ s with clientStates := css }, none)

/-- The messages the `select` in `Start` can receive: a stop request
(`m.stop`), a scan trigger (`m.chScan`), the one-minute safety-net timer,
an instance-completion message (`m.chDeleteCS`), and the five-second
shutdown grace timer. -/
inductive Event where
  | stopReq
  | scanTrig
  | minuteTick
  | deleteCS (key : Key)
  | timerFire
deriving DecidableEq, Repr

/-- The `scan` closure inside `Start`: a no-op once the loop is stopping. -/
def guardedScan (store : Store) (s : MgrState) : MgrState :=
  if s.stopping then s else (scanStep store s).1

/-- One iteration of the `select` loop in `Manager.Start`.  (The Go
code's `stopping` and `clientStates` locals are inlined: in the stop case
it sets `stopping`, unsubscribes, and either signals every registered
instance with the `err` local and arms the 5s grace timer, or — with no
instances — exits at once; in the completion case it deregisters the key
and then either checks for loop exit (when stopping) or rescans.) -/
def loopStep (store : Store) (s : MgrState) (e : Event) : MgrState :=
  if s.done then s
  else
    match e with
    | .stopReq =>
      if 0 < s.clientStates.length then
        { s with
          stopping := true, subscribed := false,
          clientStates :=
            s.clientStates.map (fun p => (p.1, signalStop s.startErr p.2)),
          timerArmed := true }
      else { s with stopping := true, subscribed := false, done := true }
    | .scanTrig => guardedScan store s
    | .minuteTick => guardedScan store s
    | .deleteCS k =>
      if s.stopping then
        if (s.clientStates.filter (fun p => decide (p.1 ≠ k))).length = 0 then
          { s with
            clientStates := s.clientStates.filter (fun p => decide (p.1 ≠ k)),
            done := true }
        else
          { s with
            clientStates := s.clientStates.filter (fun p => decide (p.1 ≠ k)) }
      else
        guardedScan store
          { s with
            clientStates := s.clientStates.filter (fun p => decide (p.1 ≠ k)) }
    | .timerFire =>
      if s.timerArmed then { s with done := true } else s

/-- Run the loop over a list of delivered messages, in order. -/
def loopRun (store : Store) (s : MgrState) (es : List Event) : MgrState :=
  es.foldl (loopStep store) s

/-- `NewManager[T]`: derives the node type from the configuration type
name; `none` models the panic on an empty (unnamed-type) name.  The
manager starts with an empty instance map. -/
def NewManagerState (typeName root : String) : Option MgrState :=
  (deriveNodeType typeName).map (fun t =>
    { root := root, nodeType := t, clientStates := [], stopping := false,
      startErr := none, subscribed := true, timerArmed := false,
      done := false, scanCount := 0, lastQuery := none })

/-- The prefix of `Manager.Start` before the loop: subscribe to
`up.none.>` (assumed to succeed — a failure returns before the loop
exists), run the initial scan and latch its error into the `err` local. -/
def startLoop (store : Store) (m : MgrState) : MgrState :=
  let r := scanStep store m
  { r.1 with startErr := r.2 }

/-- The change-notification wildcard subject `Start` subscribes to. -/
def upSubject : String := "up.none.>"

/-- The subscription callback in `Start`: each decoded point of type
`nodeType` sends one (blocking) message on the unbuffered `chScan`
channel, i.e. queues one `scanTrig` event for the loop. -/
def upCallbackEvents (points : List Point) : List Event :=
  (points.filter (fun p => decide (p.typ = PointTypeNodeType))).map
    (fun _ => Event.scanTrig)

/-- `Manager.Stop(err)`: sends `struct{}{}` on `m.stop` — the message
carries no payload, so the `err` argument never reaches the loop. -/
def ManagerStop (_err : Option GoErr) : Event :=
  Event.stopReq

/-! ## Theorems -/

/-- Claim C9: the subject-construction functions produce exactly the
strings the spec fixes: `node.<n>.points`, `node.<n>.<p>.points`,
`node.*.points`, `node.*.*.points`, `phr.<n>`, and `SendEdgePoints`
substitutes the literal `"none"` for an empty parent id. -/
theorem subjects_are_the_spec_strings (n p : String) :
    SubjectNodePoints n = "node." ++ n ++ ".points" ∧
    SubjectEdgePoints n p = "node." ++ n ++ "." ++ p ++ ".points" ∧
    SubjectNodeAllPoints = "node.*.points" ∧
    SubjectEdgeAllPoints = "node.*.*.points" ∧
    SubjectNodeHRPoints n = "phr." ++ n ∧
    (∀ toPb request publish now points ack,
      SendEdgePoints toPb request publish now n "" points ack =
        SendPoints toPb request publish now (SubjectEdgePoints n "none")
          points ack) := by
  refine ⟨rfl, ?_, rfl, rfl, ?_, fun _ _ _ _ _ _ => rfl⟩
  · apply String.ext
    show substV "node.%v.%v.points".data [n, p] = _
    simp [String.data_append]
    rfl
  · apply String.ext
    show substV "phr.%v".data [n] = _
    have h1 : substV "phr.%v".data [n] =
        'p' :: 'h' :: 'r' :: '.' :: (n.data ++ substV [] []) := rfl
    rw [h1]
    simp [substV, String.data_append]

/-- Claim C6: every zero-time point in a batch passed to `SendPoints` is
stamped with the current time before serialization and transmission, and
every non-zero-time point is transmitted entirely unchanged.  The second
conjunct shows the batch handed to the serializer is exactly
`stampTimes now points`, for every serializer. -/
theorem sendPoints_stamps_zero_times (now : Nat) (points : List Point)
    (i : Nat) (h : i < points.length) :
    (stampTimes now points).length = points.length ∧
    (stampTimes now points).get? i =
      some { points.get ⟨i, h⟩ with
             time := if (points.get ⟨i, h⟩).time = 0 then now
                     else (points.get ⟨i, h⟩).time } ∧
    (∀ (g : List Point → GoErr) request publish subject ack,
      SendPoints (fun l => .error (g l)) request publish now subject
        points ack = some (g (stampTimes now points))) := by
  refine ⟨by simp [stampTimes], ?_, fun _ _ _ _ _ => rfl⟩
  rw [stampTimes, List.get?_map, List.get?_eq_get h]
  simp only [Option.map_some]
  simp only [List.get_eq_getElem]
  by_cases h0 : points[i].time = 0
  · simp [h0]
  · simp [h0]

/-- Witness for `sendPoints_stamps_zero_times` at a concrete batch. -/
theorem sendPoints_stamps_zero_times_witness :
    (0 : Nat) < ([{ typ := "value", key := "", value := 3, text := "",
                    time := 0 }] : List Point).length ∧
    (stampTimes 42 [{ typ := "value", key := "", value := 3, text := "",
                      time := 0 }]).get? 0 =
      some { typ := "value", key := "", value := 3, text := "", time := 42 } :=
  ⟨by decide,
   by
    have h := sendPoints_stamps_zero_times 42
      [{ typ := "value", key := "", value := 3, text := "", time := 0 }]
      0 (by decide)
    exact h.2.1⟩

lemma string_length_zero_iff (s : String) : s.length = 0 ↔ s = "" := by
  constructor
  · intro h
    apply String.ext
    have h2 : s.data.length = 0 := by rw [String.length_data]; exact h
    simpa using List.length_eq_zero.mp h2
  · rintro rfl
    rfl

/-- Claim C5: with `ack = true`, `SendPoints` fails exactly when
serialization fails, when the bounded (1 second) request fails or times
out, or when the reply body is non-empty — in which case the returned
error message is the reply body; an empty reply body yields a nil return. -/
theorem sendPoints_ack_error_contract
    (toPb : List Point → Except GoErr Pb)
    (request : String → Pb → Nat → Except GoErr String)
    (publish : String → Pb → Option GoErr)
    (now : Nat) (subject : String) (points : List Point) :
    (SendPoints toPb request publish now subject points true = none ↔
      ∃ dat, toPb (stampTimes now points) = .ok dat ∧
        request subject dat oneSecondMs = .ok "") ∧
    (∀ e, toPb (stampTimes now points) = .error e →
      SendPoints toPb request publish now subject points true = some e) ∧
    (∀ dat e, toPb (stampTimes now points) = .ok dat →
      request subject dat oneSecondMs = .error e →
      SendPoints toPb request publish now subject points true = some e) ∧
    (∀ dat reply, toPb (stampTimes now points) = .ok dat →
      request subject dat oneSecondMs = .ok reply → reply ≠ "" →
      SendPoints toPb request publish now subject points true = some reply) := by
  refine ⟨?_, ?_, ?_, ?_⟩
  · cases htp : toPb (stampTimes now points) with
    | error e => simp [SendPoints, htp]
    | ok dat =>
      cases hrq : request subject dat oneSecondMs with
      | error e2 => simp [SendPoints, htp, hrq]
      | ok reply =>
        by_cases hr : 0 < reply.length
        · have hne : reply ≠ "" := by
            intro hrfl
            rw [hrfl] at hr
            simp at hr
          simp [SendPoints, htp, hrq, hr, hne]
        · have hempty : reply = "" :=
            (string_length_zero_iff reply).mp (Nat.eq_zero_of_not_pos hr)
          subst hempty
          simp [SendPoints, htp, hrq]
  · intro e htp
    simp [SendPoints, htp]
  · intro dat e htp hrq
    simp [SendPoints, htp, hrq]
  · intro dat reply htp hrq hne
    have hpos : 0 < reply.length := by
      rcases Nat.eq_zero_or_pos reply.length with h0 | hp
      · exact absurd ((string_length_zero_iff reply).mp h0) hne
      · exact hp
    simp [SendPoints, htp, hrq, hpos]

/-- Witness for `sendPoints_ack_error_contract`: a successful serializer
and an empty acknowledgment reply yield a nil error. -/
theorem sendPoints_ack_error_contract_witness :
    SendPoints (fun _ => Except.ok []) (fun _ _ _ => Except.ok "")
      (fun _ _ => none) 7 "node.b1.points"
      [{ typ := "value", key := "", value := 3, text := "", time := 0 }]
      true = none :=
  (sendPoints_ack_error_contract (fun _ => Except.ok [])
    (fun _ _ _ => Except.ok "") (fun _ _ => none) 7 "node.b1.points"
    [{ typ := "value", key := "", value := 3, text := "", time := 0 }]).1.mpr
    ⟨[], rfl, rfl⟩

/-- Claim C8: `IsTombstone()` returns true iff the edge's point
collection carries a tombstone point (type `tombstone`, empty key) whose
boolean value is true; with no tombstone point, or a false one, it
returns false.  The hypothesis states that the edge carries at most one
tombstone point, which is the spec's authority invariant for a fixed
(entity, type, key). -/
theorem edge_isTombstone_iff (e : Edge)
    (huniq : (e.points.filter (fun p =>
      decide (p.key = "") && decide (p.typ = PointTypeTombstone))).length ≤ 1) :
    (e.IsTombstone = true ↔
      ∃ p ∈ e.points, p.key = "" ∧ p.typ = PointTypeTombstone ∧
        p.value ≠ 0) := by
  cases hl : e.points.filter (fun p =>
      decide (p.key = "") && decide (p.typ = PointTypeTombstone)) with
  | nil =>
    simp only [Edge.IsTombstone, valueBool, hl, List.get?]
    constructor
    · intro hfalse
      cases hfalse
    · rintro ⟨p, hp, hk, ht, hv⟩
      have hmem : p ∈ e.points.filter (fun p =>
          decide (p.key = "") && decide (p.typ = PointTypeTombstone)) := by
        rw [List.mem_filter]
        exact ⟨hp, by simp [hk, ht]⟩
      rw [hl] at hmem
      cases hmem
  | cons q tl =>
    have htl : tl = [] := by
      rw [hl] at huniq
      simp only [List.length_cons] at huniq
      have h0 : tl.length = 0 := by omega
      exact List.length_eq_zero.mp h0
    subst htl
    have hq : q ∈ e.points.filter (fun p =>
        decide (p.key = "") && decide (p.typ = PointTypeTombstone)) := by
      rw [hl]
      exact List.mem_singleton.mpr rfl
    rw [List.mem_filter] at hq
    obtain ⟨hqmem, hqpred⟩ := hq
    simp only [Bool.and_eq_true, decide_eq_true_eq] at hqpred
    simp only [Edge.IsTombstone, valueBool, hl, List.get?]
    constructor
    · intro hval
      simp only [decide_eq_true_eq] at hval
      exact ⟨q, hqmem, hqpred.1, hqpred.2, hval⟩
    · rintro ⟨p, hp, hk, ht, hv⟩
      have hmem : p ∈ e.points.filter (fun p =>
          decide (p.key = "") && decide (p.typ = PointTypeTombstone)) := by
        rw [List.mem_filter]
        exact ⟨hp, by simp [hk, ht]⟩
      rw [hl, List.mem_singleton] at hmem
      subst hmem
      simp only [decide_eq_true_eq]
      exact hv

/-- Witness for `edge_isTombstone_iff`: an edge with a single true
tombstone point reports `IsTombstone`. -/
theorem edge_isTombstone_iff_witness :
    ({ id := "e1", up := "root", down := "b1",
       points := [{ typ := "tombstone", key := "", value := 1, text := "",
                    time := 3 }],
       hash := [] } : Edge).IsTombstone = true :=
  (edge_isTombstone_iff
    { id := "e1", up := "root", down := "b1",
      points := [{ typ := "tombstone", key := "", value := 1, text := "",
                   time := 3 }],
      hash := [] } (by decide)).mpr
    ⟨{ typ := "tombstone", key := "", value := 1, text := "", time := 3 },
     by decide, rfl, rfl, by decide⟩

/-- Normal form of `scanStep`: the dead `len(children) < 0` branch is
eliminated and the state update is displayed as a single record update. -/
lemma scanStep_fst (store : Store) (s : MgrState) :
    (scanStep store s).1 =
      { s with
        scanCount := s.scanCount + 1,
        lastQuery := some (s.root, s.nodeType, false, false),
        clientStates :=
          match store s.root s.nodeType false false with
          | .error _ => s.clientStates
          | .ok children =>
            scanStop (children.map mapKey) (scanAdd s.clientStates children) } := by
  rw [scanStep]
  cases h : store s.root s.nodeType false false with
  | error e => rfl
  | ok children => simp [Nat.not_lt_zero]

/-- Normal form of the guarded `scan` closure. -/
lemma guardedScan_eq (store : Store) (s : MgrState) :
    guardedScan store s =
      if s.stopping then s else
        { s with
          scanCount := s.scanCount + 1,
          lastQuery := some (s.root, s.nodeType, false, false),
          clientStates :=
            match store s.root s.nodeType false false with
            | .error _ => s.clientStates
            | .ok children =>
              scanStop (children.map mapKey) (scanAdd s.clientStates children) } := by
  rw [guardedScan, scanStep_fst]

lemma loopStep_nodeType (store : Store) (s : MgrState) (e : Event) :
    (loopStep store s e).nodeType = s.nodeType := by
  cases e <;> simp only [loopStep, guardedScan_eq] <;> (repeat' split) <;> rfl

lemma loopStep_root (store : Store) (s : MgrState) (e : Event) :
    (loopStep store s e).root = s.root := by
  cases e <;> simp only [loopStep, guardedScan_eq] <;> (repeat' split) <;> rfl

lemma deriveNodeType_cons (c : Char) (cs : List Char) :
    deriveNodeType ⟨c :: cs⟩ = some ⟨toLowerChar c :: cs⟩ := by
  have h1 : goSlice ⟨c :: cs⟩ 0 1 = some ⟨[c]⟩ := by
    simp [goSlice, String.length]
  have h2 : goSlice ⟨c :: cs⟩ 1 (String.length ⟨c :: cs⟩) = some ⟨cs⟩ := by
    simp [goSlice, String.length]
  simp only [deriveNodeType, h1, h2, Option.bind_eq_bind, Option.some_bind]
  rfl

/-- Claim C7: `NewManager` derives the managed node-type string by
lower-casing exactly the first letter of the configuration type name and
keeping the rest unchanged, and that stored string (together with the
root) is what every scan's `GetNodeChildren` query uses, with
`includeDeleted = false` and `recursive = false`; no loop step ever
changes it. -/
theorem nodeType_derivation_and_scan_query (c : Char) (cs : List Char) :
    deriveNodeType ⟨c :: cs⟩ = some ⟨toLowerChar c :: cs⟩ ∧
    (∀ name root m, NewManagerState name root = some m →
      deriveNodeType name = some m.nodeType ∧ m.root = root ∧
      m.clientStates = []) ∧
    (∀ (store : Store) (s : MgrState),
      (scanStep store s).1.lastQuery = some (s.root, s.nodeType, false, false)) ∧
    (∀ (store : Store) (s : MgrState) (e : Event),
      (loopStep store s e).nodeType = s.nodeType ∧
      (loopStep store s e).root = s.root) := by
  refine ⟨deriveNodeType_cons c cs, ?_, ?_, ?_⟩
  · intro name root m hm
    cases hderive : deriveNodeType name with
    | none => simp [NewManagerState, hderive] at hm
    | some t =>
      simp only [NewManagerState, hderive, Option.map_some'] at hm
      cases hm
      exact ⟨rfl, rfl, rfl⟩
  · intro store s
    rw [scanStep_fst]
  · intro store s e
    exact ⟨loopStep_nodeType store s e, loopStep_root store s e⟩

/-- Witness for `nodeType_derivation_and_scan_query`: a configuration
type named `Bus` governs nodes of type `bus`. -/
theorem nodeType_derivation_witness :
    deriveNodeType "Bus" = some "bus" :=
  (nodeType_derivation_and_scan_query 'B' ['u', 's']).1

/-- Claim C10: `NewManager` panics (models as `none`) exactly when the
reflected name of the configuration type is empty — the unconditional
`nodeType[0:1]` slice — and returns a manager for every non-empty type
name. -/
theorem newManager_empty_name_panics (name root : String) (h : name ≠ "") :
    deriveNodeType "" = none ∧
    NewManagerState "" root = none ∧
    (∃ t, deriveNodeType name = some t) ∧
    (∃ m, NewManagerState name root = some m) := by
  refine ⟨rfl, rfl, ?_⟩
  have hne : name.data ≠ [] := by
    intro hdata
    apply h
    cases name with
    | mk data =>
      cases hdata
      rfl
  obtain ⟨c, cs, hcons⟩ : ∃ c cs, name.data = c :: cs := by
    cases hd : name.data with
    | nil => exact absurd hd hne
    | cons c cs => exact ⟨c, cs, rfl⟩
  have hname : name = ⟨c :: cs⟩ := by
    cases name with
    | mk data =>
      cases hcons
      rfl
  subst hname
  refine ⟨⟨⟨toLowerChar c :: cs⟩, deriveNodeType_cons c cs⟩, ?_⟩
  refine ⟨?_, ?_⟩
  · exact { root := root, nodeType := ⟨toLowerChar c :: cs⟩,
            clientStates := [], stopping := false, startErr := none,
            subscribed := true, timerArmed := false, done := false,
            scanCount := 0, lastQuery := none }
  · rw [NewManagerState, deriveNodeType_cons]
    rfl

/-- Witness for `newManager_empty_name_panics` at the type name `Bus`. -/
theorem newManager_empty_name_panics_witness :
    ("Bus" : String) ≠ "" ∧ ∃ t, deriveNodeType "Bus" = some t :=
  ⟨by decide, (newManager_empty_name_panics "Bus" "root" (by decide)).2.2.1⟩

/-! ### Key-set lemmas about `Manager.scan` -/

lemma find_key_isSome (css : List (Key × InstState)) (k : Key) :
    (css.find? (fun p => decide (p.1 = k))).isSome = true ↔
      k ∈ css.map Prod.fst := by
  induction css with
  | nil => simp [List.find?]
  | cons p rest ih =>
    by_cases hp : p.1 = k
    · rw [List.find?_cons_of_pos _ (by simp [hp])]
      simp [hp]
    · rw [List.find?_cons_of_neg _ (by simp [hp]), ih]
      simp only [List.map_cons, List.mem_cons]
      constructor
      · exact fun h => Or.inr h
      · rintro (h | h)
        · exact absurd h.symm hp
        · exact h

lemma scanAdd_mem_preserved (ns : List GoNode)
    (css : List (Key × InstState)) (k : Key) (i : InstState)
    (hmem : (k, i) ∈ css) : (k, i) ∈ scanAdd css ns := by
  induction ns generalizing css with
  | nil => exact hmem
  | cons n rest ih =>
    rw [scanAdd]
    split
    · exact ih css hmem
    · exact ih _ (List.mem_append_left _ hmem)

lemma scanAdd_keys (ns : List GoNode) (css : List (Key × InstState))
    (k : Key) :
    k ∈ (scanAdd css ns).map Prod.fst ↔
      k ∈ css.map Prod.fst ∨ k ∈ ns.map mapKey := by
  induction ns generalizing css with
  | nil => simp [scanAdd]
  | cons n rest ih =>
    rw [scanAdd]
    by_cases hf : (css.find? (fun p => decide (p.1 = mapKey n))).isSome = true
    · rw [if_pos hf, ih]
      have hk := (find_key_isSome css (mapKey n)).mp hf
      simp only [List.map_cons, List.mem_cons]
      constructor
      · rintro (h | h)
        · exact Or.inl h
        · exact Or.inr (Or.inr h)
      · rintro (h | h | h)
        · exact Or.inl h
        · subst h
          exact Or.inl hk
        · exact Or.inr h
    · rw [if_neg hf, ih]
      simp only [List.map_append, List.mem_append, List.map_cons,
        List.map_nil, List.mem_singleton, List.mem_cons,
        List.not_mem_nil, or_false]
      tauto

lemma scanAdd_nodup (ns : List GoNode) (css : List (Key × InstState))
    (h : (css.map Prod.fst).Nodup) :
    ((scanAdd css ns).map Prod.fst).Nodup := by
  induction ns generalizing css with
  | nil => exact h
  | cons n rest ih =>
    rw [scanAdd]
    by_cases hf : (css.find? (fun p => decide (p.1 = mapKey n))).isSome = true
    · rw [if_pos hf]
      exact ih css h
    · rw [if_neg hf]
      apply ih
      have hnotin : mapKey n ∉ css.map Prod.fst := fun hmem =>
        hf ((find_key_isSome css (mapKey n)).mpr hmem)
      rw [List.map_append]
      simp [List.nodup_append, h, hnotin]

lemma scanStop_keys (found : List Key) (css : List (Key × InstState)) :
    (scanStop found css).map Prod.fst = css.map Prod.fst := by
  induction css with
  | nil => rfl
  | cons p rest ih =>
    by_cases hp : p.1 ∈ found
    · simp only [scanStop, List.map_cons, if_pos hp] at ih ⊢
      rw [ih]
    · simp only [scanStop, List.map_cons, if_neg hp] at ih ⊢
      rw [ih]

lemma scanStop_mem_stale (found : List Key) (css : List (Key × InstState))
    (k : Key) (i : InstState) (hk : k ∉ found) (hmem : (k, i) ∈ css) :
    (k, signalStop none i) ∈ scanStop found css := by
  rw [scanStop]
  refine List.mem_map.mpr ⟨(k, i), hmem, ?_⟩
  simp [hk]

lemma scanStep_keys (store : Store) (s : MgrState) (children : List GoNode)
    (hq : store s.root s.nodeType false false = Except.ok children)
    (k : Key) :
    k ∈ keysOf (scanStep store s).1 ↔
      k ∈ keysOf s ∨ k ∈ children.map mapKey := by
  rw [keysOf, scanStep_fst]
  simp only [hq]
  rw [scanStop_keys]
  exact scanAdd_keys children s.clientStates k

lemma scanStep_stale_stop (store : Store) (s : MgrState)
    (children : List GoNode) (k : Key) (i : InstState)
    (hq : store s.root s.nodeType false false = Except.ok children)
    (hmem : (k, i) ∈ s.clientStates) (hnot : k ∉ children.map mapKey) :
    (k, signalStop none i) ∈ (scanStep store s).1.clientStates := by
  rw [scanStep_fst]
  simp only [hq]
  exact scanStop_mem_stale _ _ _ _ hnot
    (scanAdd_mem_preserved children s.clientStates k i hmem)

lemma scanStep_nodup (store : Store) (s : MgrState)
    (h : (keysOf s).Nodup) : (keysOf (scanStep store s).1).Nodup := by
  rw [keysOf, scanStep_fst]
  cases hq : store s.root s.nodeType false false with
  | error e => exact h
  | ok children =>
    simp only
    rw [scanStop_keys]
    exact scanAdd_nodup children s.clientStates h

lemma scanStep_stopping (store : Store) (s : MgrState) :
    (scanStep store s).1.stopping = s.stopping := by
  rw [scanStep_fst]

lemma scanStep_done (store : Store) (s : MgrState) :
    (scanStep store s).1.done = s.done := by
  rw [scanStep_fst]

lemma scanStep_root (store : Store) (s : MgrState) :
    (scanStep store s).1.root = s.root := by
  rw [scanStep_fst]

lemma scanStep_nodeType (store : Store) (s : MgrState) :
    (scanStep store s).1.nodeType = s.nodeType := by
  rw [scanStep_fst]

lemma loopStep_scanTrig_eq (store : Store) (s : MgrState)
    (hstop : s.stopping = false) (hdone : s.done = false) :
    loopStep store s Event.scanTrig = (scanStep store s).1 := by
  simp [loopStep, hdone, guardedScan, hstop]

lemma loopStep_deleteCS_eq (store : Store) (s : MgrState) (k0 : Key)
    (hstop : s.stopping = false) (hdone : s.done = false) :
    loopStep store s (Event.deleteCS k0) =
      (scanStep store
        { s with
          clientStates :=
            s.clientStates.filter (fun p => decide (p.1 ≠ k0)) }).1 := by
  simp [loopStep, hdone, hstop, guardedScan]

lemma mem_keys_filter (css : List (Key × InstState)) (k0 k : Key) :
    k ∈ (css.filter (fun p => decide (p.1 ≠ k0))).map Prod.fst ↔
      (k ∈ css.map Prod.fst ∧ k ≠ k0) := by
  simp only [List.mem_map, List.mem_filter, decide_eq_true_eq]
  constructor
  · rintro ⟨p, ⟨hpc, hpne⟩, rfl⟩
    exact ⟨⟨p, hpc, rfl⟩, hpne⟩
  · rintro ⟨⟨p, hpc, rfl⟩, hne⟩
    exact ⟨p, ⟨hpc, hne⟩, rfl⟩

/-- Draining the completion messages of a covering list of keys, each of
which triggers a rescan, converges the registered key set to exactly the
scan result's key set. -/
lemma drain_keys (store : Store) (r t : String) (children : List GoNode)
    (hq : store r t false false = Except.ok children) :
    ∀ (stale : List Key) (s : MgrState),
      s.root = r → s.nodeType = t → s.stopping = false → s.done = false →
      (∀ k, k ∈ keysOf s → k ∈ children.map mapKey ∨ k ∈ stale) →
      (∀ k, k ∈ children.map mapKey → k ∈ keysOf s) →
      ∀ k, k ∈ keysOf (loopRun store s (stale.map Event.deleteCS)) ↔
        k ∈ children.map mapKey := by
  intro stale
  induction stale with
  | nil =>
    intro s hr ht hstop hdone hsub hsup k
    simp only [List.map_nil, loopRun, List.foldl_nil]
    exact ⟨fun h => (hsub k h).resolve_right (List.not_mem_nil k), hsup k⟩
  | cons h0 tl ih =>
    intro s hr ht hstop hdone hsub hsup k
    simp only [List.map_cons, loopRun, List.foldl_cons]
    rw [show List.foldl (loopStep store) = loopRun store from rfl]
    rw [loopStep_deleteCS_eq store s h0 hstop hdone]
    set sf : MgrState :=
      { s with
        clientStates :=
          s.clientStates.filter (fun p => decide (p.1 ≠ h0)) } with hsf
    have hfr : sf.root = r := hr
    have hft : sf.nodeType = t := ht
    have hqf : store sf.root sf.nodeType false false = Except.ok children := by
      rw [hfr, hft]
      exact hq
    have hkeys1 := scanStep_keys store sf children hqf
    refine ih (scanStep store sf).1 ?_ ?_ ?_ ?_ ?_ ?_ k
    · rw [scanStep_root, hfr]
    · rw [scanStep_nodeType, hft]
    · rw [scanStep_stopping]
      exact hstop
    · rw [scanStep_done]
      exact hdone
    · intro k2 hk2
      rcases (hkeys1 k2).mp hk2 with hkf | hck
      · have hks : k2 ∈ keysOf s ∧ k2 ≠ h0 :=
          (mem_keys_filter s.clientStates h0 k2).mp hkf
        rcases hsub k2 hks.1 with hck | hstale
        · exact Or.inl hck
        · rcases List.mem_cons.mp hstale with heq | htl
          · exact absurd heq hks.2
          · exact Or.inr htl
      · exact Or.inl hck
    · intro k2 hk2
      exact (hkeys1 k2).mpr (Or.inr hk2)

lemma scanStep_scanCount (store : Store) (s : MgrState) :
    (scanStep store s).1.scanCount = s.scanCount + 1 := by
  rw [scanStep_fst]

lemma loopStep_stopReq_pos (store : Store) (s : MgrState)
    (hdone : s.done = false) (hne : 0 < s.clientStates.length) :
    loopStep store s Event.stopReq =
      { s with
        stopping := true, subscribed := false,
        clientStates :=
          s.clientStates.map (fun p => (p.1, signalStop s.startErr p.2)),
        timerArmed := true } := by
  simp [loopStep, hdone, hne]

/-! ### Concrete fixtures -/

/-- A child node `b1` of type `bus` under the root. -/
def nodeB1 : GoNode := { id := "b1", parent := "root", ntype := "bus", points := [] }

/-- A store whose children query always returns exactly `[nodeB1]`. -/
def storeB1 : Store := fun _ _ _ _ => Except.ok [nodeB1]

/-- A store whose children query always returns no children. -/
def storeEmpty : Store := fun _ _ _ _ => Except.ok []

/-- The manager state `NewManager[Bus]` produces for root `"root"`. -/
def mgr0 : MgrState :=
  { root := "root", nodeType := "bus", clientStates := [], stopping := false,
    startErr := none, subscribed := true, timerArmed := false, done := false,
    scanCount := 0, lastQuery := none }

/-- A point of the node-type point type. -/
def ptNodeType : Point :=
  { typ := PointTypeNodeType, key := "", value := 0, text := "", time := 1 }

/-! ### Claim theorems for the manager loop -/

/-- Claim C1 counterexample: a manager that registered child `b1` during
the initial scan still has key `(root, b1)` registered immediately after
a later scan whose `getChildren` query returned no children, so the
registered key set does not equal the scan result's key set right after a
scan completes. -/
theorem scan_keys_counterexample :
    NewManagerState "Bus" "root" = some mgr0 ∧
    keysOf (startLoop storeB1 mgr0) = [("root", "b1")] ∧
    storeEmpty "root" "bus" false false = Except.ok ([] : List GoNode) ∧
    keysOf (loopStep storeEmpty (startLoop storeB1 mgr0) Event.scanTrig) =
      [("root", "b1")] ∧
    keysOf (loopStep storeEmpty (startLoop storeB1 mgr0) Event.scanTrig) ≠
      ([] : List GoNode).map mapKey :=
  ⟨by decide, by decide, rfl, by decide, by decide⟩

/-- Claim C1 (amended): after a scan over children `children`, (1) the
registered keys are exactly the old keys plus the scan keys — every scan
key is registered and no other key appears; (2) every registered key
absent from the scan result has been signalled to stop with a nil error
(it stays registered until its completion message arrives); (3) keys stay
duplicate-free; and (4) once the completion message of every such stale
key is processed (each triggering its rescan) the registered key set
equals exactly the scan result's key set. -/
theorem scan_keys_amended (store : Store) (s : MgrState)
    (children : List GoNode)
    (hstop : s.stopping = false) (hdone : s.done = false)
    (hq : store s.root s.nodeType false false = Except.ok children) :
    (∀ k, k ∈ keysOf (loopStep store s Event.scanTrig) ↔
      k ∈ keysOf s ∨ k ∈ children.map mapKey) ∧
    (∀ k i, (k, i) ∈ s.clientStates → k ∉ children.map mapKey →
      (k, signalStop none i) ∈
        (loopStep store s Event.scanTrig).clientStates) ∧
    ((keysOf s).Nodup → (keysOf (loopStep store s Event.scanTrig)).Nodup) ∧
    (∀ k, k ∈ keysOf (loopRun store (loopStep store s Event.scanTrig)
        (((keysOf s).filter
          (fun k2 => decide (k2 ∉ children.map mapKey))).map
            Event.deleteCS)) ↔
      k ∈ children.map mapKey) := by
  rw [loopStep_scanTrig_eq store s hstop hdone]
  refine ⟨scanStep_keys store s children hq,
          fun k i hm hn => scanStep_stale_stop store s children k i hq hm hn,
          fun hnd => scanStep_nodup store s hnd, ?_⟩
  apply drain_keys store s.root s.nodeType children hq
  · exact scanStep_root store s
  · exact scanStep_nodeType store s
  · rw [scanStep_stopping]
    exact hstop
  · rw [scanStep_done]
    exact hdone
  · intro k hk
    rcases (scanStep_keys store s children hq k).mp hk with hks | hck
    · by_cases hc : k ∈ children.map mapKey
      · exact Or.inl hc
      · exact Or.inr (List.mem_filter.mpr ⟨hks, by simp [hc]⟩)
    · exact Or.inl hck
  · intro k hk
    exact (scanStep_keys store s children hq k).mpr (Or.inr hk)

/-- Witness for `scan_keys_amended`: the scan over `[nodeB1]` registers
key `(root, b1)`. -/
theorem scan_keys_amended_witness :
    (("root", "b1") : Key) ∈
      keysOf (loopStep storeB1 (startLoop storeB1 mgr0) Event.scanTrig) :=
  ((scan_keys_amended storeB1 (startLoop storeB1 mgr0) [nodeB1]
      (by decide) (by decide) rfl).1 ("root", "b1")).mpr
    (Or.inr (by decide))

/-- Claim C2 counterexample: two node-type points queue two scan-trigger
messages on the unbuffered scan channel and the loop runs two scans, one
per notification — they are not coalesced into a single rescan. -/
theorem scan_coalescing_counterexample :
    upCallbackEvents [ptNodeType, ptNodeType] =
      [Event.scanTrig, Event.scanTrig] ∧
    (loopRun storeEmpty mgr0
      (upCallbackEvents [ptNodeType, ptNodeType])).scanCount =
        mgr0.scanCount + 2 ∧
    (loopRun storeEmpty mgr0
      (upCallbackEvents [ptNodeType, ptNodeType])).scanCount ≠
        mgr0.scanCount + 1 := by
  decide

/-- Claim C2 (amended): the loop consumes its messages strictly one at a
time — running a batch of messages is running them in sequence, so scans
never overlap — but scan triggers are not coalesced: `n` queued triggers
produce exactly `n` scans. -/
theorem scan_sequential_not_coalesced (store : Store) (s : MgrState)
    (n : Nat) (hstop : s.stopping = false) (hdone : s.done = false) :
    (loopRun store s (List.replicate n Event.scanTrig)).scanCount =
      s.scanCount + n ∧
    (∀ es1 es2, loopRun store s (es1 ++ es2) =
      loopRun store (loopRun store s es1) es2) := by
  constructor
  · induction n generalizing s with
    | zero => simp [loopRun]
    | succ m ih =>
      rw [List.replicate_succ]
      simp only [loopRun, List.foldl_cons]
      rw [show List.foldl (loopStep store) = loopRun store from rfl]
      rw [loopStep_scanTrig_eq store s hstop hdone]
      rw [ih (scanStep store s).1 (by rw [scanStep_stopping]; exact hstop)
        (by rw [scanStep_done]; exact hdone)]
      rw [scanStep_scanCount]
      omega
  · intro es1 es2
    simp [loopRun, List.foldl_append]

/-- Witness for `scan_sequential_not_coalesced` at two queued triggers. -/
theorem scan_sequential_not_coalesced_witness :
    (loopRun storeEmpty mgr0 (List.replicate 2 Event.scanTrig)).scanCount =
      mgr0.scanCount + 2 :=
  (scan_sequential_not_coalesced storeEmpty mgr0 2 rfl rfl).1

/-- Claim C3 counterexample: with one instance registered and the loop
still draining, the second `Stop` call delivers a second, observable stop
signal to the instance (its received-signal list grows from one entry to
two), so `Stop` is not idempotent. -/
theorem stop_idempotence_counterexample :
    (loopRun storeB1 (startLoop storeB1 mgr0)
      [ManagerStop none]).clientStates.map (fun p => p.2.stops) =
        [[none]] ∧
    (loopRun storeB1 (startLoop storeB1 mgr0)
      [ManagerStop none, ManagerStop none]).clientStates.map
        (fun p => p.2.stops) = [[none, none]] ∧
    ([[(none : Option GoErr), none]] ≠ [[(none : Option GoErr)]]) := by
  decide

/-- Claim C3 (amended): a second `Stop` received while the loop is still
draining does not panic and does not terminate the loop, but it is
observably not idempotent: every still-registered instance receives a
second stop signal (carrying the loop's latched `err` again). -/
theorem stop_twice_resignals (store : Store) (s : MgrState)
    (e1 e2 : Option GoErr)
    (hdone : s.done = false) (hne : 0 < s.clientStates.length) :
    (loopRun store s [ManagerStop e1, ManagerStop e2]).done = false ∧
    ∀ k i, (k, i) ∈ s.clientStates →
      (k, signalStop s.startErr (signalStop s.startErr i)) ∈
        (loopRun store s [ManagerStop e1, ManagerStop e2]).clientStates := by
  have h1 := loopStep_stopReq_pos store s hdone hne
  have hlen1 : 0 <
      (s.clientStates.map (fun p => (p.1, signalStop s.startErr p.2))).length := by
    rw [List.length_map]
    exact hne
  have hrun : loopRun store s [ManagerStop e1, ManagerStop e2] =
      loopStep store (loopStep store s Event.stopReq) Event.stopReq := rfl
  have h2 := loopStep_stopReq_pos store
    { s with
      stopping := true, subscribed := false,
      clientStates :=
        s.clientStates.map (fun p => (p.1, signalStop s.startErr p.2)),
      timerArmed := true }
    hdone hlen1
  rw [hrun, h1, h2]
  constructor
  · exact hdone
  · intro k i hmem
    refine List.mem_map.mpr ⟨(k, signalStop s.startErr i), ?_, rfl⟩
    exact List.mem_map.mpr ⟨(k, i), hmem, rfl⟩

/-- Witness for `stop_twice_resignals` on a one-instance manager. -/
theorem stop_twice_resignals_witness :
    (loopRun storeB1 (startLoop storeB1 mgr0)
      [ManagerStop none, ManagerStop (some "x")]).done = false :=
  (stop_twice_resignals storeB1 (startLoop storeB1 mgr0) none (some "x")
    (by decide) (by decide)).1

/-- Claim C4: `Stop(err)` sends an empty struct on the stop channel, so
its error argument is discarded; when the loop processes the stop
request, each instance is signalled with `Start`'s local `err` — the
initial scan's result (nil on success) — not the error passed to `Stop`.
Evaluated at the failing input: one registered instance, successful
initial scan, `Stop(errors.New("boom"))` delivers a nil-error stop
signal. -/
theorem stop_error_dropped :
    ManagerStop (some "boom") = Event.stopReq ∧
    (∀ e : Option GoErr, ManagerStop e = Event.stopReq) ∧
    (loopStep storeB1 (startLoop storeB1 mgr0)
      (ManagerStop (some "boom"))).clientStates.map (fun p => p.2.stops) =
        [[(none : Option GoErr)]] ∧
    ((none : Option GoErr) ≠ some "boom") :=
  ⟨rfl, fun _ => rfl, by decide, by decide⟩

end SimpleIot
